import Mathlib

/-!
Shallow embedding of the hospital_mock security-review pipeline core:
the findings enrichment and summary algorithm of
`app/services/analysis_service.py`, the scan-record store, and the local
report composition and block formatting of `app/services/report_service.py`.

JSON-shaped data (scan records, findings, the knowledge-base dictionary)
is modelled by the inductive `JVal`; Python dictionaries are modelled as
insertion-ordered association lists, with `assocGet`, `assocSet` and
`dictMerge` mirroring `d.get(k)`, `d[k] = v` and `{**d1, **d2}`. JSON null
and Python `None` coincide (`json.load` maps null to `None`), so `d.get(k)`
without a default is modelled as returning `JVal.null` when `k` is absent.
-/

namespace HospitalMock

/-- JSON-shaped values: the data model of findings, knowledge-base entries
and scan records (everything the pipeline serializes with `json`). -/
inductive JVal : Type where
  | str : String → JVal
  | num : Int → JVal
  | bool : Bool → JVal
  | null : JVal
  | arr : List JVal → JVal
  | obj : List (String × JVal) → JVal
deriving Repr

mutual

/-- Structural decidable equality for `JVal` (the nested inductive prevents
the automatic derivation). -/
def JVal.decEq : (a b : JVal) → Decidable (a = b)
  | .str a, .str b =>
    match String.decEq a b with
    | isTrue h => isTrue (by rw [h])
    | isFalse h => isFalse (fun he => h (JVal.str.inj he))
  | .num a, .num b =>
    match inferInstanceAs (Decidable (a = b)) with
    | isTrue h => isTrue (by rw [h])
    | isFalse h => isFalse (fun he => h (JVal.num.inj he))
  | .bool a, .bool b =>
    match Bool.decEq a b with
    | isTrue h => isTrue (by rw [h])
    | isFalse h => isFalse (fun he => h (JVal.bool.inj he))
  | .null, .null => isTrue rfl
  | .arr xs, .arr ys =>
    match JVal.decEqList xs ys with
    | isTrue h => isTrue (by rw [h])
    | isFalse h => isFalse (fun he => h (JVal.arr.inj he))
  | .obj xs, .obj ys =>
    match JVal.decEqObj xs ys with
    | isTrue h => isTrue (by rw [h])
    | isFalse h => isFalse (fun he => h (JVal.obj.inj he))
  | .str _, .num _ => isFalse (by intro h; exact JVal.noConfusion h)
  | .str _, .bool _ => isFalse (by intro h; exact JVal.noConfusion h)
  | .str _, .null => isFalse (by intro h; exact JVal.noConfusion h)
  | .str _, .arr _ => isFalse (by intro h; exact JVal.noConfusion h)
  | .str _, .obj _ => isFalse (by intro h; exact JVal.noConfusion h)
  | .num _, .str _ => isFalse (by intro h; exact JVal.noConfusion h)
  | .num _, .bool _ => isFalse (by intro h; exact JVal.noConfusion h)
  | .num _, .null => isFalse (by intro h; exact JVal.noConfusion h)
  | .num _, .arr _ => isFalse (by intro h; exact JVal.noConfusion h)
  | .num _, .obj _ => isFalse (by intro h; exact JVal.noConfusion h)
  | .bool _, .str _ => isFalse (by intro h; exact JVal.noConfusion h)
  | .bool _, .num _ => isFalse (by intro h; exact JVal.noConfusion h)
  | .bool _, .null => isFalse (by intro h; exact JVal.noConfusion h)
  | .bool _, .arr _ => isFalse (by intro h; exact JVal.noConfusion h)
  | .bool _, .obj _ => isFalse (by intro h; exact JVal.noConfusion h)
  | .null, .str _ => isFalse (by intro h; exact JVal.noConfusion h)
  | .null, .num _ => isFalse (by intro h; exact JVal.noConfusion h)
  | .null, .bool _ => isFalse (by intro h; exact JVal.noConfusion h)
  | .null, .arr _ => isFalse (by intro h; exact JVal.noConfusion h)
  | .null, .obj _ => isFalse (by intro h; exact JVal.noConfusion h)
  | .arr _, .str _ => isFalse (by intro h; exact JVal.noConfusion h)
  | .arr _, .num _ => isFalse (by intro h; exact JVal.noConfusion h)
  | .arr _, .bool _ => isFalse (by intro h; exact JVal.noConfusion h)
  | .arr _, .null => isFalse (by intro h; exact JVal.noConfusion h)
  | .arr _, .obj _ => isFalse (by intro h; exact JVal.noConfusion h)
  | .obj _, .str _ => isFalse (by intro h; exact JVal.noConfusion h)
  | .obj _, .num _ => isFalse (by intro h; exact JVal.noConfusion h)
  | .obj _, .bool _ => isFalse (by intro h; exact JVal.noConfusion h)
  | .obj _, .null => isFalse (by intro h; exact JVal.noConfusion h)
  | .obj _, .arr _ => isFalse (by intro h; exact JVal.noConfusion h)
termination_by structural a => a

/-- Decidable equality for lists of `JVal`. -/
def JVal.decEqList : (xs ys : List JVal) → Decidable (xs = ys)
  | [], [] => isTrue rfl
  | [], _ :: _ => isFalse (by intro h; exact List.noConfusion h)
  | _ :: _, [] => isFalse (by intro h; exact List.noConfusion h)
  | x :: xs, y :: ys =>
    match JVal.decEq x y with
    | isFalse h => isFalse (fun he => h (List.cons.inj he).1)
    | isTrue h1 =>
      match JVal.decEqList xs ys with
      | isTrue h2 => isTrue (by rw [h1, h2])
      | isFalse h => isFalse (fun he => h (List.cons.inj he).2)
termination_by structural xs => xs

/-- Decidable equality for JSON-object field lists. -/
def JVal.decEqObj : (xs ys : List (String × JVal)) → Decidable (xs = ys)
  | [], [] => isTrue rfl
  | [], _ :: _ => isFalse (by intro h; exact List.noConfusion h)
  | _ :: _, [] => isFalse (by intro h; exact List.noConfusion h)
  | (k1, v1) :: xs, (k2, v2) :: ys =>
    match String.decEq k1 k2 with
    | isFalse h => isFalse (fun he => h (congrArg (fun l => (l.headD ("", JVal.null)).1) he))
    | isTrue hk =>
      match JVal.decEq v1 v2 with
      | isFalse h => isFalse (fun he => h (congrArg (fun l => (l.headD ("", JVal.null)).2) he))
      | isTrue hv =>
        match JVal.decEqObj xs ys with
        | isTrue h2 => isTrue (by rw [hk, hv, h2])
        | isFalse h => isFalse (fun he => h (List.cons.inj he).2)
termination_by structural xs => xs

end

instance : DecidableEq JVal := JVal.decEq

/-- A Python dictionary holding JSON-shaped values, as an insertion-ordered
association list (keys unique in every dictionary the pipeline builds). -/
abbrev Dict := List (String × JVal)

/-- First binding of key `k` in an association list; Python `d.get(k)`
yields `None` exactly when this yields `none`. -/
def assocGet {κ α : Type} [DecidableEq κ] (d : List (κ × α)) (k : κ) : Option α :=
  match d with
  | [] => none
  | p :: rest => if p.1 = k then some p.2 else assocGet rest k

/-- Python `d[k] = v`: replace the binding of `k` in place if present,
append it otherwise (insertion order preserved, as for Python dicts). -/
def assocSet {κ α : Type} [DecidableEq κ] (d : List (κ × α)) (k : κ) (v : α) : List (κ × α) :=
  match assocGet d k with
  | some _ => d.map (fun p => if p.1 = k then (p.1, v) else p)
  | none => d ++ [(k, v)]

/-- Python `d.get(k)` on JSON data: JSON null loads as Python `None`, so a
missing key and the stored value are both `JVal`, with `null` for `None`. -/
def dictGet (d : Dict) (k : String) : JVal :=
  (assocGet d k).getD JVal.null

/-- Python `d.get(k, dflt)`. -/
def dictGetD (d : Dict) (k : String) (dflt : JVal) : JVal :=
  (assocGet d k).getD dflt

/-- Python `{**d1, **d2}`: the bindings of `d1` in order, then each binding
of `d2` inserted in turn (so `d2` overwrites `d1` on common keys). -/
def dictMerge (d1 d2 : Dict) : Dict :=
  d2.foldl (fun acc p => assocSet acc p.1 p.2) d1

/-- Python truthiness of a JSON-shaped value. -/
def jTruthy : JVal → Bool
  | .str s => !(s = "")
  | .num n => !(n = 0)
  | .bool b => b
  | .null => false
  | .arr xs => !xs.isEmpty
  | .obj xs => !xs.isEmpty

/-- Python `a or b`. -/
def pyOr (a b : JVal) : JVal :=
  if jTruthy a then a else b

mutual

/-- Python `repr()` of a JSON-shaped value (used for container elements). -/
def pyRepr : JVal → String
  | JVal.str s => "\x27" ++ s ++ "\x27"
  | JVal.num n => toString n
  | JVal.bool b => if b then "True" else "False"
  | JVal.null => "None"
  | JVal.arr xs => "[" ++ pyReprSeq xs ++ "]"
  | JVal.obj xs => "\x7b" ++ pyReprItems xs ++ "\x7d"
termination_by structural v => v

/-- Comma-separated reprs of list elements. -/
def pyReprSeq : List JVal → String
  | [] => ""
  | [x] => pyRepr x
  | x :: xs => pyRepr x ++ ", " ++ pyReprSeq xs
termination_by structural xs => xs

/-- Comma-separated reprs of dict items. -/
def pyReprItems : List (String × JVal) → String
  | [] => ""
  | [(k, v)] => "\x27" ++ k ++ "\x27: " ++ pyRepr v
  | (k, v) :: xs => "\x27" ++ k ++ "\x27: " ++ pyRepr v ++ ", " ++ pyReprItems xs
termination_by structural xs => xs

end

/-- Python `str()` of a JSON-shaped value, as interpolated by f-strings in
`report_service.py` (scalars; containers render via `repr`). -/
def pyStr : JVal → String
  | JVal.str s => s
  | v => pyRepr v

/-- Python `s.strip()`: whitespace removed from both ends (computable on
the character list, so that concrete report contents evaluate). -/
def pyStrip (s : String) : String :=
  String.mk (((s.toList.dropWhile Char.isWhitespace).reverse.dropWhile Char.isWhitespace).reverse)

/-- Python `s.startswith(pre)`. -/
def pyStartsWith (s pre : String) : Bool :=
  pre.toList.isPrefixOf s.toList

/-- Python `s.replace(a, b)` for single-character patterns (the only form
the report service uses: underscores to spaces). -/
def pyReplaceChar (s : String) (a b : Char) : String :=
  String.mk (s.toList.map (fun c => if c = a then b else c))

/-- Worker for `pySplitBlankLines`: cut at each non-overlapping, leftmost
occurrence of two consecutive newline characters. -/
def splitBlankGo : List Char → List Char → List (List Char)
  | [], acc => [acc.reverse]
  | '\n' :: '\n' :: rest, acc => acc.reverse :: splitBlankGo rest []
  | c :: rest, acc => splitBlankGo rest (c :: acc)

/-- Python `content.split('\n\n')`: leftmost, non-overlapping splitting on
the two-character separator, keeping empty pieces. -/
def pySplitBlankLines (s : String) : List String :=
  (splitBlankGo s.toList []).map String.mk

/-- Helper for `pyTitle`: tracks whether the previous character was a
letter. -/
def pyTitleGo : Bool → List Char → List Char
  | _, [] => []
  | prevAlpha, c :: cs =>
    (if c.isAlpha then (if prevAlpha then c.toLower else c.toUpper) else c) :: pyTitleGo c.isAlpha cs

/-- Python `str.title()` (ASCII letters): uppercase each letter that starts
a run of letters, lowercase the rest. -/
def pyTitle (s : String) : String :=
  String.mk (pyTitleGo false s.toList)

/-- Fields of a JSON object, with `[]` for anything else; models reading a
sub-dictionary out of a scan record (a present non-object value would make
the Python source fault on the subsequent attribute access). -/
def asObj : JVal → Dict
  | JVal.obj d => d
  | _ => []

/-- Elements of a JSON array, with `[]` for anything else. -/
def asArr : JVal → List JVal
  | JVal.arr xs => xs
  | _ => []

/-- Python `d.get(k, {})` followed by use as a dictionary. -/
def getObjD (d : Dict) (k : String) : Dict :=
  asObj (dictGet d k)

/-! Embedding of `app/services/analysis_service.py`. -/

/-- Embeds the per-finding body of `AnalysisService._enrich_findings`
(lines 106-115): look up `finding.get('shortform_keyword')` in the loaded
dictionary; on a hit build `{**finding, **findings_dict[keyword]}`, on a
miss keep the finding as-is. A non-string keyword (including an absent
one, i.e. `None`) can never be a key of the JSON dictionary. -/
def enrichOne (findings_dict : List (String × Dict)) (finding : Dict) : Dict :=
  match dictGet finding "shortform_keyword" with
  | JVal.str keyword =>
    match assocGet findings_dict keyword with
    | some entry => dictMerge finding entry
    | none => finding
  | _ => finding

/-- Embeds `AnalysisService._enrich_findings` (lines 93-117).
`findings_dict = none` models a missing `findings_dictionary.json`: the
findings are returned unchanged (after a logged warning). Otherwise the
loop appends one enriched record per finding, in input order. -/
def enrichFindings (findings : List Dict) (findings_dict : Option (List (String × Dict))) : List Dict :=
  match findings_dict with
  | none => findings
  | some fd => findings.foldl (fun enriched finding => enriched ++ [enrichOne fd finding]) []

/-- What one pass of the enrichment loop does to a single finding, for
either state of the knowledge-base dictionary. -/
def enrichStep (kb : Option (List (String × Dict))) (f : Dict) : Dict :=
  match kb with
  | none => f
  | some fd => enrichOne fd f

/-- The summary record returned by `AnalysisService._generate_summary`. -/
structure Summary : Type where
  total_findings : Nat
  severity_breakdown : List (JVal × Nat)
deriving Repr, DecidableEq

/-- Python `finding.get('severity', 'UNKNOWN')`. -/
def severityOf (finding : Dict) : JVal :=
  dictGetD finding "severity" (JVal.str "UNKNOWN")

/-- Python `severity_counts[severity] = severity_counts.get(severity, 0) + 1`
on the insertion-ordered counts dictionary. -/
def bumpCount (counts : List (JVal × Nat)) (k : JVal) : List (JVal × Nat) :=
  match assocGet counts k with
  | some n => counts.map (fun p => if p.1 = k then (p.1, n + 1) else p)
  | none => counts ++ [(k, 1)]

/-- Embeds `AnalysisService._generate_summary` (lines 119-129). -/
def generateSummary (findings : List Dict) : Summary :=
  let severity_counts := findings.foldl (fun counts finding => bumpCount counts (severityOf finding)) []
  { total_findings := findings.length, severity_breakdown := severity_counts }

/-- Count recorded for severity `k` in a severity-breakdown dictionary
(0 when the key is absent). -/
def countOf (counts : List (JVal × Nat)) (k : JVal) : Nat :=
  (assocGet counts k).getD 0

/-- Sum of all counts in a severity-breakdown dictionary. -/
def sumCounts (counts : List (JVal × Nat)) : Nat :=
  (counts.map Prod.snd).sum

/-- Embeds `AnalysisService._save_scan_results` (lines 131-140): the store
is the `scanned_results` area keyed by scan id; writing `{scan_id}.json`
replaces any previous record with that id. -/
def saveScanResults (store : List (String × Dict)) (scan_id : String) (results : Dict) : List (String × Dict) :=
  assocSet store scan_id results

/-- Key of a JSON object produced by `json.dump` from a Python dict key
(container keys are rejected by `json.dump` and cannot occur). -/
def jsonKey : JVal → String
  | JVal.str s => s
  | JVal.num n => toString n
  | JVal.bool b => if b then "true" else "false"
  | _ => "null"

/-- JSON form of a `Summary`, as serialized into the saved scan record. -/
def summaryToJVal (s : Summary) : JVal :=
  JVal.obj [("total_findings", JVal.num (Int.ofNat s.total_findings)),
            ("severity_breakdown",
             JVal.obj (s.severity_breakdown.map (fun p => (jsonKey p.1, JVal.num (Int.ofNat p.2)))))]

/-- Embeds the `scan_results` record built by
`AnalysisService.analyze_codebase` (lines 71-80): the exact keys, in
order, that every stored scan record carries; `findings` is the enriched
list and `summary` its `_generate_summary`. -/
def mkScanResults (scan_id timestamp repository_path sector_hint plan_used : String)
    (repository_info : Dict) (findings : List Dict) : Dict :=
  [("scan_id", JVal.str scan_id),
   ("timestamp", JVal.str timestamp),
   ("repository_path", JVal.str repository_path),
   ("sector_hint", JVal.str sector_hint),
   ("plan_used", JVal.str plan_used),
   ("repository_info", JVal.obj repository_info),
   ("findings", JVal.arr (findings.map JVal.obj)),
   ("summary", summaryToJVal (generateSummary findings))]

/-! Embedding of `app/services/report_service.py`. -/

/-- Typed failures of the report service: `unknownReportType` embeds the
`ValueError("Unknown report type: ...")` of `_load_template`, `notFound`
the `FileNotFoundError`s of `_load_template` and `_load_scan_results`. -/
inductive RepErr : Type where
  | unknownReportType : String → RepErr
  | notFound : String → RepErr
deriving Repr, DecidableEq

/-- Embeds `ReportService._load_scan_results` (lines 205-213): read
`scanned_results/{scan_id}.json` or fail with the not-found error. -/
def loadScanResults (store : List (String × Dict)) (scan_id : String) : Except RepErr Dict :=
  match assocGet store scan_id with
  | none => Except.error (RepErr.notFound ("Scan results not found for ID: " ++ scan_id))
  | some results => Except.ok results

/-- The `template_mapping` dictionary of `ReportService._load_template`
(lines 52-56). -/
def templateMapping (report_type : String) : Option String :=
  if report_type = "regulatory_compliance" then some "regulatory_compliance_template.md"
  else if report_type = "technical_operational" then some "technical_operational_template.md"
  else if report_type = "business_focused" then some "business_focused_template.md"
  else none

/-- Embeds `ReportService._load_template` (lines 50-68); `templates` maps
template file names in the templates directory to their contents. -/
def loadTemplate (templates : List (String × String)) (report_type : String) : Except RepErr String :=
  match templateMapping report_type with
  | none => Except.error (RepErr.unknownReportType ("Unknown report type: " ++ report_type))
  | some template_file =>
    match assocGet templates template_file with
    | none => Except.error (RepErr.notFound ("Template not found: " ++ template_file))
    | some content => Except.ok content

/-- Lines 111-114 of `_local_generate`: title block and verbatim template. -/
def headerParts (template report_type : String) : List String :=
  ["# " ++ pyTitle (pyReplaceChar report_type '_' ' ') ++ " (Local Generated)", "\n", template]

/-- Lines 116-131 of `_local_generate`: Executive Summary. The code reads
`scan_results.get('repo_info', {})`, then scans its `'found'` sub-dict for
the first key starting with `README` and takes that entry's `'content'`;
a truthy (non-empty string) result is excerpted to 1200 characters with an
ellipsis when the unstripped text is longer, otherwise a fixed no-README
line is emitted. -/
def execSummaryParts (scan_results : Dict) : List String :=
  let repo_info := getObjD scan_results "repo_info"
  let readme_text : JVal :=
    match (getObjD repo_info "found").find? (fun p => pyStartsWith p.1 "README") with
    | some p => dictGet (asObj p.2) "content"
    | none => JVal.null
  "\n\n## Executive Summary" ::
    (match readme_text with
     | JVal.str r =>
       if r = "" then
         ["No README found; executive summary is derived from scan findings and templates."]
       else
         ["Context from repository README:",
          (pyStrip r).take 1200 ++ (if 1200 < r.length then "..." else "")]
     | _ => ["No README found; executive summary is derived from scan findings and templates."])

/-- Lines 133-139 of `_local_generate`: Scan Summary. -/
def scanSummaryParts (scan_results : Dict) : List String :=
  let summary := getObjD scan_results "summary"
  let severity := getObjD summary "severity_breakdown"
  ["\n\n## Scan Summary",
   "- Total findings: " ++ pyStr (dictGetD summary "total_findings" (JVal.num 0))]
  ++ severity.map (fun p => "- " ++ p.1 ++ ": " ++ pyStr p.2)

/-- Lines 147-172 of `_local_generate`: the block rendered for the finding
at (1-based) position `idx`. -/
def findingParts (idx : Nat) (fj : JVal) : List String :=
  let f := asObj fj
  let title := pyOr (dictGet f "title") (dictGet f "shortform_keyword")
  let short := dictGet f "shortform_keyword"
  let path := pyOr (dictGet f "file_path") (JVal.str "N/A")
  let line := dictGet f "line_number"
  let sev := dictGet f "severity"
  let desc := pyOr (dictGet f "description") (JVal.str "")
  let snippet := pyOr (dictGet f "context_snippet") (JVal.str "")
  let remediation := pyOr (dictGet f "remediation") (JVal.str "Refer to template remediation.")
  let compliance := asArr (pyOr (dictGet f "compliance") (JVal.arr []))
  ["### " ++ toString idx ++ ". " ++ pyStr title ++ " (" ++ pyStr short ++ ")",
   "- Severity: " ++ pyStr sev,
   "- Location: " ++ pyStr path ++ ":" ++ pyStr line]
  ++ (if jTruthy desc then ["- Description: " ++ pyStr desc] else [])
  ++ (if jTruthy snippet then
        ["\n**Evidence (code snippet):**", "```", (pyStrip (pyStr snippet)).take 800, "```"]
      else [])
  ++ ["- Recommendation: " ++ pyStr remediation]
  ++ (if compliance.isEmpty then [] else
        ["- Compliance mappings: " ++ String.intercalate ", " (compliance.map pyStr)])
  ++ ["\n"]

/-- Lines 141-172 of `_local_generate`: Detailed Findings, or the fixed
no-findings line when `scan_results.get('findings', [])` is empty. -/
def findingsSectionParts (scan_results : Dict) : List String :=
  let findings := asArr (dictGetD scan_results "findings" (JVal.arr []))
  "\n\n## Detailed Findings and Analysis" ::
    (if findings.isEmpty then ["No findings detected during automated analysis."]
     else (findings.enum.map (fun p => findingParts (p.1 + 1) p.2)).flatten)

/-- Lines 174-180 of `_local_generate`: optional Gemini Analysis section. -/
def geminiAnalysisParts (scan_results : Dict) : List String :=
  let gemini_analysis := getObjD scan_results "gemini_analysis"
  if gemini_analysis.isEmpty then []
  else "\n\n## Gemini Analysis" ::
    (gemini_analysis.map (fun p => ["### " ++ p.1, pyStr p.2])).flatten

/-- Lines 182-188 of `_local_generate`: optional policy excerpts, each
truncated to 1000 characters with an ellipsis when longer. -/
def policyParts (scan_results : Dict) : List String :=
  let repo_info := getObjD scan_results "repo_info"
  let policy_files := getObjD repo_info "policy_files"
  if policy_files.isEmpty then []
  else "\n\n## Repository Policies (excerpts)" ::
    (policy_files.map (fun p =>
      let content := pyStr p.2
      ["### " ++ p.1,
       (pyStrip content).take 1000 ++ (if 1000 < content.length then "..." else "")])).flatten

/-- Lines 190-195 of `_local_generate`: fixed Methodology section. -/
def methodologyParts : List String :=
  ["\n\n## Methodology",
   "Automated scanners used:",
   "- CodeT5-based static heuristics (pattern checks)",
   "- SCA heuristics scanning requirements.txt and package.json",
   "- Repository context extractor for README and policy files"]

/-- Lines 197-200 of `_local_generate`: fixed Limitations section. -/
def limitationParts : List String :=
  ["\n\n## Limitations",
   "- The CodeT5 analyzer currently only processes Python files; other languages may not be covered.",
   "- SCA is heuristic-based and does not perform CVE lookups or transitive analysis.",
   "- This automated report is intended as a starting point; manual review is recommended for high-severity findings."]

/-- The full `parts` list built by `ReportService._local_generate`
(lines 105-202), in the order of the source appends. -/
def localParts (scan_results : Dict) (template report_type : String) : List String :=
  headerParts template report_type
  ++ execSummaryParts scan_results
  ++ scanSummaryParts scan_results
  ++ findingsSectionParts scan_results
  ++ geminiAnalysisParts scan_results
  ++ policyParts scan_results
  ++ methodologyParts
  ++ limitationParts
  ++ ["\n\n-- End of report (generated locally) --"]

/-- Embeds `ReportService._local_generate` (lines 105-203): the parts list
joined by blank lines. -/
def localGenerate (scan_results : Dict) (template report_type : String) : String :=
  String.intercalate "\n\n" (localParts scan_results template report_type)

/-- Embeds `ReportService._generate_with_gemini` (lines 70-103). `model`
is `none` when no Gemini model is configured; `some (Except.error e)`
models `generate_content` raising and `some (Except.ok t)` its textual
output. Both unavailability and failure fall back to `localGenerate`. -/
def generateWithGemini (model : Option (Except String String)) (scan_results : Dict)
    (template report_type : String) : String :=
  match model with
  | none => localGenerate scan_results template report_type
  | some (Except.ok text) => text
  | some (Except.error _) => localGenerate scan_results template report_type

/-- A block of the generated Word document: a heading with its level, or a
plain paragraph. -/
inductive Block : Type where
  | heading : Nat → String → Block
  | para : String → Block
deriving Repr, DecidableEq

/-- Python `s.strip('#')`: remove leading and trailing marker characters. -/
def stripHashes (s : String) : String :=
  String.mk (((s.toList.dropWhile (fun c => c = '#')).reverse.dropWhile (fun c => c = '#')).reverse)

/-- Embeds the block classification of `ReportService._format_and_save_report`
(lines 232-242): split the content on blank lines; drop whitespace-only
blocks; a block beginning with a marker character becomes a heading whose
level is `paragraph.count('#')` and whose text is
`paragraph.strip('#').strip()`; every other block a trimmed paragraph. -/
def formatBlocks (content : String) : List Block :=
  (pySplitBlankLines content).filterMap (fun paragraph =>
    if pyStrip paragraph = "" then none
    else if pyStartsWith paragraph "#" then
      some (Block.heading (paragraph.toList.count '#') (pyStrip (stripHashes paragraph)))
    else some (Block.para (pyStrip paragraph)))

/-- Embeds `ReportService._format_and_save_report` (lines 215-246): the
generated file name `{report_type}_{scan_id}_{timestamp}.docx` and the
document, a level-0 title heading followed by the content's blocks. -/
def formatAndSaveReport (content scan_id report_type timestamp : String) : String × List Block :=
  (report_type ++ "_" ++ scan_id ++ "_" ++ timestamp ++ ".docx",
   Block.heading 0 ("Security " ++ pyTitle (pyReplaceChar report_type '_' ' ') ++ " Report")
     :: formatBlocks content)

/-- Result of one `generate_report` call: the returned path (or the typed
failure) together with every file written to the reports area. -/
structure ReportOutcome : Type where
  result : Except RepErr String
  written : List (String × List Block)
deriving Repr

/-- Embeds `ReportService.generate_report` (lines 27-48): load the scan
record, load the template, produce the content (Gemini or local fallback),
then format and save; any failure propagates before the save happens. -/
def generateReport (store : List (String × Dict)) (templates : List (String × String))
    (model : Option (Except String String)) (scan_id report_type timestamp : String) : ReportOutcome :=
  match loadScanResults store scan_id with
  | Except.error e => { result := Except.error e, written := [] }
  | Except.ok scan_results =>
    match loadTemplate templates report_type with
    | Except.error e => { result := Except.error e, written := [] }
    | Except.ok template =>
      let report_content := generateWithGemini model scan_results template report_type
      let saved := formatAndSaveReport report_content scan_id report_type timestamp
      { result := Except.ok saved.1, written := [saved] }

/-- Python membership test `keyword in findings_dict` for a JSON-loaded
dictionary: only a string keyword can match a key. -/
def keywordInDict (findings_dict : List (String × Dict)) (keyword : JVal) : Bool :=
  match keyword with
  | JVal.str s => (assocGet findings_dict s).isSome
  | _ => false

/-! Association-list lemmas. -/

theorem assocGet_nil {κ α : Type} [DecidableEq κ] (k : κ) :
    assocGet ([] : List (κ × α)) k = none := rfl

theorem assocGet_cons {κ α : Type} [DecidableEq κ] (p : κ × α) (rest : List (κ × α)) (k : κ) :
    assocGet (p :: rest) k = if p.1 = k then some p.2 else assocGet rest k := rfl

theorem assocGet_cons_of_ne {κ α : Type} [DecidableEq κ] (p : κ × α) (rest : List (κ × α))
    (k : κ) (h : p.1 ≠ k) : assocGet (p :: rest) k = assocGet rest k := by
  rw [assocGet_cons, if_neg h]

theorem assocGet_append {κ α : Type} [DecidableEq κ] (d l : List (κ × α)) (k : κ) :
    assocGet (d ++ l) k =
      match assocGet d k with
      | some v => some v
      | none => assocGet l k := by
  induction d with
  | nil => simp [assocGet_nil]
  | cons p rest ih =>
    by_cases hp : p.1 = k
    · simp [List.cons_append, assocGet_cons, hp]
    · simp [List.cons_append, assocGet_cons, hp, ih]

theorem assocGet_map_set_self {κ α : Type} [DecidableEq κ] (d : List (κ × α)) (k : κ)
    (v : α) (n : α) (h : assocGet d k = some n) :
    assocGet (d.map (fun p => if p.1 = k then (p.1, v) else p)) k = some v := by
  induction d with
  | nil => exact absurd h (by rw [assocGet_nil]; exact Option.noConfusion)
  | cons p rest ih =>
    by_cases hp : p.1 = k
    · simp [assocGet_cons, hp]
    · rw [assocGet_cons_of_ne p rest k hp] at h
      simp only [List.map_cons, if_neg hp]
      rw [assocGet_cons_of_ne p _ k hp]
      exact ih h

theorem assocGet_map_set_ne {κ α : Type} [DecidableEq κ] (d : List (κ × α)) (k k' : κ)
    (v : α) (h : k' ≠ k) :
    assocGet (d.map (fun p => if p.1 = k then (p.1, v) else p)) k' = assocGet d k' := by
  induction d with
  | nil => rfl
  | cons p rest ih =>
    by_cases hp : p.1 = k
    · have hp' : p.1 ≠ k' := by rw [hp]; exact fun he => h he.symm
      simp only [List.map_cons, if_pos hp]
      rw [assocGet_cons_of_ne _ _ k' (by simpa using hp'), assocGet_cons_of_ne p rest k' hp']
      exact ih
    · simp only [List.map_cons, if_neg hp]
      rw [assocGet_cons, assocGet_cons]
      by_cases hq : p.1 = k'
      · simp [hq]
      · simp [hq, ih]

theorem assocGet_set_self {κ α : Type} [DecidableEq κ] (d : List (κ × α)) (k : κ) (v : α) :
    assocGet (assocSet d k v) k = some v := by
  unfold assocSet
  cases h : assocGet d k with
  | none =>
    rw [assocGet_append, h]
    simp [assocGet_cons]
  | some n => exact assocGet_map_set_self d k v n h

theorem assocGet_set_ne {κ α : Type} [DecidableEq κ] (d : List (κ × α)) (k k' : κ) (v : α)
    (h : k' ≠ k) :
    assocGet (assocSet d k v) k' = assocGet d k' := by
  unfold assocSet
  cases hd : assocGet d k with
  | none =>
    rw [assocGet_append]
    cases hq : assocGet d k' with
    | none =>
      rw [assocGet_cons, if_neg (show ¬k = k' from fun he => h he.symm)]
      rfl
    | some w => rfl
  | some n => exact assocGet_map_set_ne d k k' v h

/-! Merge lemmas: in `{**d1, **d2}` the right dictionary wins. -/

theorem dictMerge_get_of_miss (d e : Dict) (k : String) (h : assocGet e k = none) :
    assocGet (dictMerge d e) k = assocGet d k := by
  induction e generalizing d with
  | nil => rfl
  | cons p rest ih =>
    have hp : p.1 ≠ k := by
      intro he
      rw [assocGet_cons, if_pos he] at h
      exact Option.noConfusion h
    have hrest : assocGet rest k = none := by
      rw [← assocGet_cons_of_ne p rest k hp]
      exact h
    show assocGet (dictMerge (assocSet d p.1 p.2) rest) k = assocGet d k
    rw [ih (assocSet d p.1 p.2) hrest]
    exact assocGet_set_ne d p.1 k p.2 (fun he => hp he.symm)

theorem assocGet_eq_none_of_not_mem {κ α : Type} [DecidableEq κ] (d : List (κ × α)) (k : κ)
    (h : k ∉ d.map Prod.fst) : assocGet d k = none := by
  induction d with
  | nil => rfl
  | cons p rest ih =>
    simp only [List.map_cons, List.mem_cons] at h
    push_neg at h
    have hp : p.1 ≠ k := fun he => h.1 he.symm
    rw [assocGet_cons_of_ne p rest k hp]
    exact ih h.2

theorem dictMerge_get_of_hit (d e : Dict) (k : String) (v : JVal)
    (hnd : (e.map Prod.fst).Nodup) (h : assocGet e k = some v) :
    assocGet (dictMerge d e) k = some v := by
  induction e generalizing d with
  | nil => simp [assocGet] at h
  | cons p rest ih =>
    simp only [List.map_cons, List.nodup_cons] at hnd
    by_cases hp : p.1 = k
    · subst hp
      have hv : p.2 = v := by
        rw [assocGet_cons, if_pos rfl] at h
        exact Option.some.inj h
      have hrest : assocGet rest p.1 = none :=
        assocGet_eq_none_of_not_mem rest p.1 hnd.1
      show assocGet (dictMerge (assocSet d p.1 p.2) rest) p.1 = some v
      rw [dictMerge_get_of_miss _ rest p.1 hrest, assocGet_set_self d p.1 p.2, hv]
    · have h' : assocGet rest k = some v := by
        rw [← assocGet_cons_of_ne p rest k hp]
        exact h
      exact ih (assocSet d p.1 p.2) hnd.2 h'

/-! Enrichment lemmas. -/

theorem foldl_append_map {α β : Type} (g : α → β) (F : List α) (acc : List β) :
    F.foldl (fun out x => out ++ [g x]) acc = acc ++ F.map g := by
  induction F generalizing acc with
  | nil => simp
  | cons f rest ih => simp [List.foldl_cons, ih]

theorem enrichFindings_some (F : List Dict) (fd : List (String × Dict)) :
    enrichFindings F (some fd) = F.map (enrichOne fd) := by
  unfold enrichFindings
  simpa using foldl_append_map (enrichOne fd) F []

theorem enrichOne_of_miss (fd : List (String × Dict)) (f : Dict)
    (h : keywordInDict fd (dictGet f "shortform_keyword") = false) :
    enrichOne fd f = f := by
  cases hk : dictGet f "shortform_keyword" with
  | str s =>
    simp only [keywordInDict, hk] at h
    cases hn : assocGet fd s with
    | some entry =>
      rw [hn] at h
      exact absurd h (by simp)
    | none => simp [enrichOne, hk, hn]
  | num n => simp [enrichOne, hk]
  | bool b => simp [enrichOne, hk]
  | null => simp [enrichOne, hk]
  | arr xs => simp [enrichOne, hk]
  | obj xs => simp [enrichOne, hk]

/-! Claim theorems: enrichment (C1, C5, C6). -/

/-- Claim C5: for every findings list F and knowledge base K (including the
missing-dictionary case), `enrich(F, K)` has the same length as F and its
i-th element is computed from exactly the i-th input finding, so no finding
is dropped, added or reordered. -/
theorem enrich_preserves_length_and_order (F : List Dict) (kb : Option (List (String × Dict))) :
    (enrichFindings F kb).length = F.length ∧
    ∀ (i : Nat) (hi : i < F.length) (hj : i < (enrichFindings F kb).length),
      (enrichFindings F kb).get ⟨i, hj⟩ = enrichStep kb (F.get ⟨i, hi⟩) := by
  cases kb with
  | none => exact ⟨rfl, fun i hi hj => rfl⟩
  | some fd =>
    have he : enrichFindings F (some fd) = F.map (enrichOne fd) := enrichFindings_some F fd
    constructor
    · rw [he]
      exact List.length_map _ _
    · intro i hi hj
      revert hj
      rw [he]
      intro hj
      simp [List.get_eq_getElem, List.getElem_map, enrichStep]

/-- Witness for C5 at a concrete findings list and knowledge base. -/
theorem enrich_preserves_length_and_order_witness :
    (enrichFindings [[("shortform_keyword", JVal.str "sql_injection")]]
        (some [("sql_injection", [("title", JVal.str "SQL Injection")])])).get ⟨0, by decide⟩ =
      enrichStep (some [("sql_injection", [("title", JVal.str "SQL Injection")])])
        [("shortform_keyword", JVal.str "sql_injection")] :=
  (enrich_preserves_length_and_order [[("shortform_keyword", JVal.str "sql_injection")]]
    (some [("sql_injection", [("title", JVal.str "SQL Injection")])])).2 0 (by decide) (by decide)

/-- Claim C6: enrichment degrades to pass-through. A missing knowledge-base
dictionary returns the findings unchanged, and a finding whose
`shortform_keyword` has no dictionary entry is returned exactly as it came
in. -/
theorem enrich_passthrough_on_miss :
    (∀ F : List Dict, enrichFindings F none = F) ∧
    ∀ (fd : List (String × Dict)) (F : List Dict) (i : Nat)
      (hi : i < F.length) (hj : i < (enrichFindings F (some fd)).length),
      keywordInDict fd (dictGet (F.get ⟨i, hi⟩) "shortform_keyword") = false →
      (enrichFindings F (some fd)).get ⟨i, hj⟩ = F.get ⟨i, hi⟩ := by
  refine ⟨fun F => rfl, fun fd F i hi hj h => ?_⟩
  have hgot : (enrichFindings F (some fd)).get ⟨i, hj⟩ = enrichOne fd (F.get ⟨i, hi⟩) := by
    revert hj
    rw [enrichFindings_some]
    intro hj
    simp [List.get_eq_getElem, List.getElem_map]
  rw [hgot]
  exact enrichOne_of_miss fd _ h

/-- Witness for C6: a finding with an unknown keyword passes through a
non-empty dictionary unchanged. -/
theorem enrich_passthrough_on_miss_witness :
    (enrichFindings [[("shortform_keyword", JVal.str "xyz"), ("severity", JVal.str "LOW")]]
        (some [("sql_injection", [("severity", JVal.str "HIGH")])])).get ⟨0, by decide⟩ =
      [("shortform_keyword", JVal.str "xyz"), ("severity", JVal.str "LOW")] :=
  enrich_passthrough_on_miss.2 [("sql_injection", [("severity", JVal.str "HIGH")])]
    [[("shortform_keyword", JVal.str "xyz"), ("severity", JVal.str "LOW")]]
    0 (by decide) (by decide) (by decide)

/-- Counterexample to claim C1 as stated: on a knowledge-base hit the merge
is `{**finding, **entry}`, so the dictionary entry overwrites the finding.
For a finding with severity LOW and an entry with severity HIGH, the
enriched severity is HIGH, not the finding's LOW. -/
theorem enrich_finding_precedence_counterexample :
    assocGet ((enrichFindings
        [[("shortform_keyword", JVal.str "sql_injection"), ("severity", JVal.str "LOW")]]
        (some [("sql_injection",
          [("severity", JVal.str "HIGH"), ("title", JVal.str "SQL Injection")])])).headD [])
        "severity" = some (JVal.str "HIGH") ∧
    assocGet ((enrichFindings
        [[("shortform_keyword", JVal.str "sql_injection"), ("severity", JVal.str "LOW")]]
        (some [("sql_injection",
          [("severity", JVal.str "HIGH"), ("title", JVal.str "SQL Injection")])])).headD [])
        "severity" ≠ some (JVal.str "LOW") := by
  constructor
  · rfl
  · decide

/-- Claim C1 (amended): on a knowledge-base hit, for every field defined by
both the finding and the entry, the enriched value is the knowledge-base
entry's value, not the finding's: the merge `{**finding, **entry}` lets the
dictionary overwrite the finding. -/
theorem enrich_hit_kb_wins (fd : List (String × Dict)) (F : List Dict) (i : Nat)
    (hi : i < F.length) (hj : i < (enrichFindings F (some fd)).length)
    (kw : String) (entry : Dict) (x : String) (vF vK : JVal)
    (hkw : dictGet (F.get ⟨i, hi⟩) "shortform_keyword" = JVal.str kw)
    (hentry : assocGet fd kw = some entry)
    (hnd : (entry.map Prod.fst).Nodup)
    (_hfx : assocGet (F.get ⟨i, hi⟩) x = some vF)
    (hkx : assocGet entry x = some vK) :
    assocGet ((enrichFindings F (some fd)).get ⟨i, hj⟩) x = some vK := by
  have hgot : (enrichFindings F (some fd)).get ⟨i, hj⟩ = enrichOne fd (F.get ⟨i, hi⟩) := by
    revert hj
    rw [enrichFindings_some]
    intro hj
    simp [List.get_eq_getElem, List.getElem_map]
  rw [hgot]
  simp only [enrichOne, hkw, hentry]
  exact dictMerge_get_of_hit _ entry x vK hnd hkx

/-- Witness for the amended C1 at a concrete finding and entry sharing the
severity field. -/
theorem enrich_hit_kb_wins_witness :
    assocGet ((enrichFindings
        [[("shortform_keyword", JVal.str "sql_injection"), ("severity", JVal.str "LOW")]]
        (some [("sql_injection",
          [("severity", JVal.str "HIGH"), ("title", JVal.str "SQL Injection")])])).get
        ⟨0, by decide⟩) "severity" = some (JVal.str "HIGH") :=
  enrich_hit_kb_wins
    [("sql_injection", [("severity", JVal.str "HIGH"), ("title", JVal.str "SQL Injection")])]
    [[("shortform_keyword", JVal.str "sql_injection"), ("severity", JVal.str "LOW")]]
    0 (by decide) (by decide) "sql_injection"
    [("severity", JVal.str "HIGH"), ("title", JVal.str "SQL Injection")]
    "severity" (JVal.str "LOW") (JVal.str "HIGH")
    (by decide) (by decide) (by decide) (by decide) (by decide)

/-! Claim theorems: report service (C4, C8, C9). -/

/-- Claim C4: a `report_type` outside the three recognized values makes
report generation fail with the unknown-report-type error and write no
report file (for any state of the store, the templates and the generator,
provided the scan record itself exists so that the earlier load step does
not mask the failure). -/
theorem generate_report_unknown_type_no_write
    (store : List (String × Dict)) (templates : List (String × String))
    (model : Option (Except String String)) (scan_id report_type timestamp : String)
    (h1 : report_type ≠ "regulatory_compliance")
    (h2 : report_type ≠ "technical_operational")
    (h3 : report_type ≠ "business_focused") :
    (generateReport store templates model scan_id report_type timestamp).written = [] ∧
    ((assocGet store scan_id).isSome →
      (generateReport store templates model scan_id report_type timestamp).result =
        Except.error (RepErr.unknownReportType ("Unknown report type: " ++ report_type))) := by
  have hmap : templateMapping report_type = none := by
    simp [templateMapping, h1, h2, h3]
  cases hs : assocGet store scan_id with
  | none =>
    refine ⟨?_, ?_⟩
    · simp [generateReport, loadScanResults, hs]
    · intro hcontra
      simp at hcontra
  | some results =>
    refine ⟨?_, fun _ => ?_⟩
    · simp [generateReport, loadScanResults, loadTemplate, hs, hmap]
    · simp [generateReport, loadScanResults, loadTemplate, hs, hmap]

/-- Witness for C4 at the spec's own example `marketing_fluff`. -/
theorem generate_report_unknown_type_no_write_witness :
    (generateReport [("scan-1", [])] [] none "scan-1" "marketing_fluff" "20240101").written = [] ∧
    (generateReport [("scan-1", [])] [] none "scan-1" "marketing_fluff" "20240101").result =
      Except.error (RepErr.unknownReportType ("Unknown report type: " ++ "marketing_fluff")) :=
  ⟨(generate_report_unknown_type_no_write [("scan-1", [])] [] none "scan-1" "marketing_fluff"
      "20240101" (by decide) (by decide) (by decide)).1,
   (generate_report_unknown_type_no_write [("scan-1", [])] [] none "scan-1" "marketing_fluff"
      "20240101" (by decide) (by decide) (by decide)).2 (by decide)⟩

/-- Claim C8: when the external generator is absent or its invocation
raises, report content comes from the deterministic local composition and
no failure is surfaced. -/
theorem gemini_failure_falls_back (model : Option (Except String String)) (scan_results : Dict)
    (template report_type : String)
    (h : model = none ∨ ∃ e, model = some (Except.error e)) :
    generateWithGemini model scan_results template report_type =
      localGenerate scan_results template report_type := by
  rcases h with h | ⟨e, h⟩ <;> subst h <;> rfl

/-- Witness for C8 with no configured generator. -/
theorem gemini_failure_falls_back_witness :
    generateWithGemini none [] "TEMPLATE" "business_focused" =
      localGenerate [] "TEMPLATE" "business_focused" :=
  gemini_failure_falls_back none [] "TEMPLATE" "business_focused" (Or.inl rfl)

/-- Claim C9: saving a scan record and loading it back by its id returns
the record unchanged, and loading an id that was never saved fails with
the not-found error. -/
theorem scan_store_roundtrip (store : List (String × Dict)) (scan_id : String) (results : Dict) :
    loadScanResults (saveScanResults store scan_id results) scan_id = Except.ok results ∧
    (assocGet store scan_id = none →
      loadScanResults store scan_id =
        Except.error (RepErr.notFound ("Scan results not found for ID: " ++ scan_id))) := by
  constructor
  · unfold loadScanResults saveScanResults
    rw [assocGet_set_self]
  · intro h
    unfold loadScanResults
    rw [h]

/-- Witness for C9 at a concrete record and an unknown id. -/
theorem scan_store_roundtrip_witness :
    loadScanResults (saveScanResults [] "scan-9" [("scan_id", JVal.str "scan-9")]) "scan-9" =
      Except.ok [("scan_id", JVal.str "scan-9")] ∧
    loadScanResults [] "scan-9" =
      Except.error (RepErr.notFound ("Scan results not found for ID: " ++ "scan-9")) :=
  ⟨(scan_store_roundtrip [] "scan-9" [("scan_id", JVal.str "scan-9")]).1,
   (scan_store_roundtrip [] "scan-9" [("scan_id", JVal.str "scan-9")]).2 rfl⟩

/-! Claim theorems: report formatting (C2) and local composition (C3). -/

/-- Counterexample to claim C2 as stated: the formatter's heading level is
the count of marker characters anywhere in the block, not of the leading
run, and marker stripping also removes trailing markers. On the block
"# Title #" the code produces a level-2 heading "Title", while the claim
(one leading marker; text with only leading markers stripped) prescribes
the different block level 1 with text "Title #". -/
theorem format_heading_level_counterexample :
    formatBlocks "# Title #" = [Block.heading 2 "Title"] ∧
    ("# Title #".toList.takeWhile (fun c => c = '#')).length = 1 ∧
    Block.heading 2 "Title" ≠ Block.heading 1 "Title #" :=
  ⟨by decide, by decide, by decide⟩

/-- Claim C2 (amended): a non-blank block beginning with a marker
character becomes a heading whose level is the total count of marker
characters in the whole block and whose text is the block with leading and
trailing markers stripped, then whitespace-trimmed; in particular
formatting "# Title\n\nSome text" yields exactly one level-1 heading
"Title" and one paragraph "Some text". -/
theorem format_heading_blocks (content paragraph : String)
    (hp : paragraph ∈ pySplitBlankLines content)
    (h1 : pyStrip paragraph ≠ "")
    (h2 : pyStartsWith paragraph "#" = true) :
    formatBlocks "# Title\n\nSome text" = [Block.heading 1 "Title", Block.para "Some text"] ∧
    Block.heading (paragraph.toList.count '#') (pyStrip (stripHashes paragraph)) ∈
      formatBlocks content := by
  refine ⟨by decide, ?_⟩
  unfold formatBlocks
  exact List.mem_filterMap.mpr ⟨paragraph, hp, by simp [h1, h2]⟩

/-- Witness for the amended C2 at the claim's own concrete content. -/
theorem format_heading_blocks_witness :
    formatBlocks "# Title\n\nSome text" = [Block.heading 1 "Title", Block.para "Some text"] ∧
    Block.heading 1 "Title" ∈ formatBlocks "# Title\n\nSome text" :=
  format_heading_blocks "# Title\n\nSome text" "# Title" (by decide) (by decide) (by decide)

/-- Claim C3 (code bug): the local composer derives its Executive Summary
from `scan_results.get('repo_info', {}).get('found', {})`, but scan
records are stored by `analyze_codebase` with the repository context under
the key `repository_info` (README directly at its key `readme`), and no
`repo_info` key exists. Hence for every stored scan record — whatever
README `repository_info` carries — the Executive Summary is the fixed
no-README statement and the 1200-character README excerpt branch is
unreachable. -/
theorem local_report_ignores_stored_readme
    (scan_id timestamp repository_path sector_hint plan_used : String)
    (repository_info : Dict) (findings : List Dict) :
    execSummaryParts (mkScanResults scan_id timestamp repository_path sector_hint plan_used
        repository_info findings) =
      ["\n\n## Executive Summary",
       "No README found; executive summary is derived from scan findings and templates."] := rfl

/-! Counting lemmas for the summary claims (C7, C10). -/

theorem countOf_bump_self (counts : List (JVal × Nat)) (k : JVal) :
    countOf (bumpCount counts k) k = countOf counts k + 1 := by
  unfold bumpCount countOf
  cases h : assocGet counts k with
  | none =>
    rw [assocGet_append, h]
    simp [assocGet_cons]
  | some n =>
    rw [assocGet_map_set_self counts k (n + 1) n h]
    rfl

theorem countOf_bump_ne (counts : List (JVal × Nat)) (k k' : JVal) (h : k' ≠ k) :
    countOf (bumpCount counts k) k' = countOf counts k' := by
  unfold bumpCount countOf
  cases hc : assocGet counts k with
  | none =>
    rw [assocGet_append]
    cases hq : assocGet counts k' with
    | none =>
      rw [assocGet_cons, if_neg (show ¬k = k' from fun he => h he.symm)]
      rfl
    | some n => rfl
  | some n => rw [assocGet_map_set_ne counts k k' (n + 1) h]

theorem countOf_fold (F : List Dict) (acc : List (JVal × Nat)) (k : JVal) :
    countOf (F.foldl (fun counts finding => bumpCount counts (severityOf finding)) acc) k =
      countOf acc k + F.countP (fun f => decide (severityOf f = k)) := by
  induction F generalizing acc with
  | nil => simp
  | cons f rest ih =>
    rw [List.foldl_cons, ih, List.countP_cons]
    by_cases hf : severityOf f = k
    · rw [hf, countOf_bump_self]
      simp [hf]
      omega
    · rw [countOf_bump_ne acc (severityOf f) k (fun he => hf he.symm)]
      simp [hf]

theorem not_mem_keys_of_assocGet_none {κ α : Type} [DecidableEq κ] (d : List (κ × α)) (k : κ)
    (h : assocGet d k = none) : k ∉ d.map Prod.fst := by
  induction d with
  | nil => simp
  | cons p rest ih =>
    by_cases hp : p.1 = k
    · rw [assocGet_cons, if_pos hp] at h
      exact absurd h (by simp)
    · rw [assocGet_cons_of_ne p rest k hp] at h
      simp only [List.map_cons, List.mem_cons]
      push_neg
      exact ⟨fun he => hp he.symm, ih h⟩

theorem map_set_of_none {κ α : Type} [DecidableEq κ] (d : List (κ × α)) (k : κ) (v : α)
    (h : assocGet d k = none) :
    d.map (fun p => if p.1 = k then (p.1, v) else p) = d := by
  induction d with
  | nil => rfl
  | cons p rest ih =>
    have hp : p.1 ≠ k := by
      intro he
      rw [assocGet_cons, if_pos he] at h
      exact Option.noConfusion h
    rw [assocGet_cons_of_ne p rest k hp] at h
    rw [List.map_cons, if_neg hp, ih h]

theorem bumpCount_cons_ne (p : JVal × Nat) (rest : List (JVal × Nat)) (k : JVal)
    (hp : p.1 ≠ k) : bumpCount (p :: rest) k = p :: bumpCount rest k := by
  unfold bumpCount
  rw [assocGet_cons_of_ne p rest k hp]
  cases h : assocGet rest k with
  | none => rfl
  | some n => simp [hp]

theorem bumpCount_cons_self (p : JVal × Nat) (rest : List (JVal × Nat))
    (hrest : assocGet rest p.1 = none) :
    bumpCount (p :: rest) p.1 = (p.1, p.2 + 1) :: rest := by
  have hhead : assocGet (p :: rest) p.1 = some p.2 := by rw [assocGet_cons, if_pos rfl]
  unfold bumpCount
  rw [hhead]
  simp [map_set_of_none rest p.1 (p.2 + 1) hrest]

theorem sumCounts_cons (p : JVal × Nat) (rest : List (JVal × Nat)) :
    sumCounts (p :: rest) = p.2 + sumCounts rest := by
  simp [sumCounts]

theorem sumCounts_bump (counts : List (JVal × Nat)) (k : JVal)
    (hnd : (counts.map Prod.fst).Nodup) :
    sumCounts (bumpCount counts k) = sumCounts counts + 1 := by
  induction counts with
  | nil => rfl
  | cons p rest ih =>
    simp only [List.map_cons, List.nodup_cons] at hnd
    by_cases hp : p.1 = k
    · subst hp
      have hrest : assocGet rest p.1 = none :=
        assocGet_eq_none_of_not_mem rest p.1 hnd.1
      rw [bumpCount_cons_self p rest hrest, sumCounts_cons, sumCounts_cons]
      omega
    · rw [bumpCount_cons_ne p rest k hp, sumCounts_cons, sumCounts_cons, ih hnd.2]
      omega

theorem bumpCount_keys_nodup (counts : List (JVal × Nat)) (k : JVal)
    (hnd : (counts.map Prod.fst).Nodup) :
    ((bumpCount counts k).map Prod.fst).Nodup := by
  unfold bumpCount
  cases hc : assocGet counts k with
  | none =>
    rw [List.map_append]
    refine List.Nodup.append hnd (List.nodup_singleton k) ?_
    intro a ha hb
    simp only [List.map_cons, List.map_nil, List.mem_singleton] at hb
    subst hb
    exact not_mem_keys_of_assocGet_none counts a hc ha
  | some n =>
    rw [List.map_map]
    have he : (Prod.fst ∘ fun p : JVal × Nat => if p.1 = k then (p.1, n + 1) else p) = Prod.fst := by
      funext p
      by_cases hp : p.1 = k <;> simp [hp]
    rw [he]
    exact hnd

theorem summary_fold_nodup_sum (F : List Dict) (acc : List (JVal × Nat))
    (h : (acc.map Prod.fst).Nodup) :
    ((F.foldl (fun counts finding => bumpCount counts (severityOf finding)) acc).map
      Prod.fst).Nodup ∧
    sumCounts (F.foldl (fun counts finding => bumpCount counts (severityOf finding)) acc) =
      sumCounts acc + F.length := by
  induction F generalizing acc with
  | nil => exact ⟨h, rfl⟩
  | cons f rest ih =>
    rw [List.foldl_cons]
    obtain ⟨hn, hs⟩ := ih (bumpCount acc (severityOf f)) (bumpCount_keys_nodup acc _ h)
    refine ⟨hn, ?_⟩
    rw [hs, sumCounts_bump acc _ h]
    simp [Nat.add_assoc, Nat.add_comm 1 rest.length]

/-! Claim theorems: summary (C7, C10). -/

/-- Claim C7: the summary's `total_findings` is the length of the input
list (duplicates and pass-through findings included); the severity
breakdown records, for every severity value, exactly the number of
findings whose `severity` (defaulting to UNKNOWN when the key is absent)
equals it; and the empty findings list summarizes to zero findings and an
empty breakdown. -/
theorem summary_spec (F : List Dict) (k : JVal) :
    generateSummary [] = { total_findings := 0, severity_breakdown := [] } ∧
    (generateSummary F).total_findings = F.length ∧
    countOf (generateSummary F).severity_breakdown k =
      F.countP (fun f => decide (severityOf f = k)) ∧
    ∀ f : Dict, assocGet f "severity" = none → severityOf f = JVal.str "UNKNOWN" := by
  refine ⟨rfl, rfl, ?_, fun f hf => by simp [severityOf, dictGetD, hf]⟩
  have h := countOf_fold F [] k
  simpa [generateSummary, countOf, assocGet_nil] using h

/-- Witness for C7 at a one-finding list and at a finding with no
severity key. -/
theorem summary_spec_witness :
    countOf (generateSummary [[("severity", JVal.str "HIGH")]]).severity_breakdown
        (JVal.str "HIGH") =
      List.countP (fun f => decide (severityOf f = JVal.str "HIGH"))
        [[("severity", JVal.str "HIGH")]] ∧
    severityOf [] = JVal.str "UNKNOWN" :=
  ⟨(summary_spec [[("severity", JVal.str "HIGH")]] (JVal.str "HIGH")).2.2.1,
   (summary_spec [] JVal.null).2.2.2 [] rfl⟩

/-- Claim C10: the severity-breakdown counts sum to `total_findings` —
every finding is counted under exactly one severity key. -/
theorem breakdown_sums_to_total (F : List Dict) :
    sumCounts (generateSummary F).severity_breakdown = (generateSummary F).total_findings := by
  have h := (summary_fold_nodup_sum F [] (by simp)).2
  simpa [generateSummary, sumCounts] using h

end HospitalMock
